import Mathlib

/-!
# Verification of the whatsapp-mcp bridge daemon

A shallow embedding of the Go bridge (`whatsapp-bridge/`) in Lean 4, with
theorems settling the specification claims about its storage layer
(`internal/storage/store.go`), identity resolver, audio analyzer, HTTP
control plane and event pipeline.

Modelling conventions:
* SQLite tables are association lists keyed by their primary key;
  `INSERT OR REPLACE` removes the conflicting row and prepends the new one.
* Go `time.Time` values are modelled as `Int` instants (comparison is all
  the code uses).  Nullable SQL columns are `Option`s; values written
  through the Go API are always non-null.
* Go byte slices are `List Nat` (each entry < 256 at use sites).
* Iteration order of Go `map` keys is arbitrary; wherever the bridge
  iterates a deduplicated key set, the model uses `List.dedup` order (all
  such iterations commute, since they touch distinct keys/rows).
-/

namespace Bridge

/-- Row of the `chats` table: `jid TEXT PRIMARY KEY, name TEXT,
last_message_time TIMESTAMP` (the latter two are nullable). -/
structure ChatRow where
  jid : String
  name : Option String
  lastMessageTime : Option Int
  deriving DecidableEq, Repr

/-- Row of the `messages` table, primary key `(id, chat_jid)`. -/
structure MessageRow where
  id : String
  chatJid : String
  sender : String
  content : String
  timestamp : Int
  isFromMe : Bool
  mediaType : String
  filename : String
  url : String
  mediaKey : List Nat
  fileSha256 : List Nat
  fileEncSha256 : List Nat
  fileLength : Nat
  deriving DecidableEq, Repr

/-- Row of the `sender_id_aliases` table: `alias_id TEXT PRIMARY KEY,
canonical_id TEXT NOT NULL, updated_at TIMESTAMP NOT NULL`. -/
structure AliasRow where
  aliasId : String
  canonicalId : String
  updatedAt : Int
  deriving DecidableEq, Repr

/-- The message store: the three tables of `store/messages.db`. -/
structure Store where
  chats : List ChatRow
  messages : List MessageRow
  aliases : List AliasRow
  deriving DecidableEq, Repr

def emptyStore : Store := ⟨[], [], []⟩

/-- `MessageStore.StoreChat`:
`INSERT OR REPLACE INTO chats (jid, name, last_message_time) VALUES (?, ?, ?)`.
The replace is unconditional: the old row (if any) is dropped wholesale. -/
def storeChat (jid name : String) (lastMessageTime : Int) (chats : List ChatRow) :
    List ChatRow :=
  { jid := jid, name := some name, lastMessageTime := some lastMessageTime } ::
    chats.filter (fun c => c.jid ≠ jid)

/-- `SELECT last_message_time FROM chats WHERE jid = ?` (outer `Option` is
row existence, inner `Option` is SQL null). -/
def getChatLastMessageTime (jid : String) (chats : List ChatRow) : Option (Option Int) :=
  (chats.find? (fun c => c.jid = jid)).map (·.lastMessageTime)

/-- Whitespace per Go `strings.TrimSpace` (restricted to the ASCII space
characters that occur in identifiers; the Unicode classes are irrelevant
to the bridge's inputs). -/
def goIsSpace (c : Char) : Bool := c = ' ' ∨ c = '\t' ∨ c = '\n' ∨ c = '\r'

/-- Go `strings.TrimSpace`, over the character list so the kernel can
evaluate it. -/
def goTrim (s : String) : String :=
  ⟨((s.data.dropWhile goIsSpace).reverse.dropWhile goIsSpace).reverse⟩

/-- `normalizeSenderID` (store.go): trim whitespace, and cut everything from
the first `@` on (`strings.SplitN(x, "@", 2)[0]` is the prefix before the
first `@`). -/
def normalizeSenderID (id : String) : String :=
  let normalized := goTrim id
  if normalized = "" then ""
  else if normalized.data.contains '@' then ⟨normalized.data.takeWhile (fun c => c ≠ '@')⟩
  else normalized

/-- The deduplicated key set `unique` built by `StoreSenderAliases`:
the normalized canonical id plus every normalized non-empty alias. -/
def senderAliasKeySet (canonical : String) (aliases : List String) : List String :=
  (canonical :: (aliases.map normalizeSenderID).filter (fun a => a ≠ "")).dedup

/-- One `INSERT ... ON CONFLICT(alias_id) DO UPDATE` of `StoreSenderAliases`:
`canonical_id` is overwritten, `updated_at` only advances. -/
def upsertAlias (aliasId canonicalId : String) (updatedAt : Int) (tbl : List AliasRow) :
    List AliasRow :=
  match tbl.find? (fun r => r.aliasId = aliasId) with
  | some old =>
      { aliasId := aliasId, canonicalId := canonicalId,
        updatedAt := if updatedAt > old.updatedAt then updatedAt else old.updatedAt } ::
        tbl.filter (fun r => r.aliasId ≠ aliasId)
  | none => { aliasId := aliasId, canonicalId := canonicalId, updatedAt := updatedAt } :: tbl

/-- `MessageStore.StoreSenderAliases`: no-op when the canonical id
normalizes to empty; otherwise upsert every key of the deduplicated set. -/
def storeSenderAliases (canonicalID : String) (aliases : List String) (updatedAt : Int)
    (tbl : List AliasRow) : List AliasRow :=
  let canonical := normalizeSenderID canonicalID
  if canonical = "" then tbl
  else (senderAliasKeySet canonical aliases).foldl
    (fun t a => upsertAlias a canonical updatedAt t) tbl

/-- The `promoteFrom` set of `PromoteCanonicalSender` / `PromoteCanonicalChat`:
normalized aliases, dropping empties and the canonical id itself. -/
def promoteFromSet (canonical : String) (aliases : List String) : List String :=
  ((aliases.map normalizeSenderID).filter (fun a => a ≠ "" ∧ a ≠ canonical)).dedup

/-- `MessageStore.PromoteCanonicalSender`:
`UPDATE messages SET sender = ? WHERE sender IN (...)`. -/
def promoteCanonicalSender (canonicalID : String) (aliases : List String)
    (messages : List MessageRow) : List MessageRow :=
  let canonical := normalizeSenderID canonicalID
  if canonical = "" then messages
  else
    let promoteFrom := promoteFromSet canonical aliases
    if promoteFrom = [] then messages
    else messages.map (fun m =>
      if m.sender ∈ promoteFrom then { m with sender := canonical } else m)

/-- `CASE WHEN chats.name IS NOT NULL AND chats.name <> '' THEN chats.name
ELSE excluded.name END` (PromoteCanonicalChat / migration merge). -/
def chatMergeName (existing incoming : Option String) : Option String :=
  match existing with
  | some n => if n ≠ "" then some n else incoming
  | none => incoming

/-- The latest-time merge `CASE` of `PromoteCanonicalChat` and the
migration: fill nulls, otherwise keep the larger value. -/
def chatMergeTime (existing incoming : Option Int) : Option Int :=
  match existing, incoming with
  | none, i => i
  | some e, none => some e
  | some e, some i => if i > e then some i else some e

/-- One loop iteration of `PromoteCanonicalChat` for a single alias:
copy/merge the alias chat row onto the canonical id, rewrite
`messages.chat_jid`, then delete the alias chat row. -/
def promoteChatStep (canonical aliasKey : String) (s : Store) : Store :=
  let s1 : Store :=
    match s.chats.find? (fun c => c.jid = aliasKey) with
    | none => s
    | some src =>
      match s.chats.find? (fun c => c.jid = canonical) with
      | none =>
          { s with chats :=
              { jid := canonical, name := src.name, lastMessageTime := src.lastMessageTime } ::
                s.chats }
      | some dst =>
          { s with chats := s.chats.map (fun c =>
              if c.jid = canonical then
                { jid := canonical, name := chatMergeName dst.name src.name,
                  lastMessageTime := chatMergeTime dst.lastMessageTime src.lastMessageTime }
              else c) }
  let s2 : Store := { s1 with messages := s1.messages.map (fun m =>
      if m.chatJid = aliasKey then { m with chatJid := canonical } else m) }
  { s2 with chats := s2.chats.filter (fun c => c.jid ≠ aliasKey) }

/-- `MessageStore.PromoteCanonicalChat`. -/
def promoteCanonicalChat (canonicalID : String) (aliases : List String) (s : Store) : Store :=
  let canonical := normalizeSenderID canonicalID
  if canonical = "" then s
  else
    let unique := promoteFromSet canonical aliases
    if unique = [] then s
    else unique.foldl (fun acc a => promoteChatStep canonical a acc) s

/-- `MessageStore.StoreMessage`: drop empty-payload rows, otherwise
`INSERT OR REPLACE` keyed by `(id, chat_jid)`.  The argument tuple carries
exactly the columns of a `MessageRow`. -/
def storeMessage (row : MessageRow) (messages : List MessageRow) : List MessageRow :=
  if row.content = "" ∧ row.mediaType = "" then messages
  else row :: messages.filter (fun m => ¬(m.id = row.id ∧ m.chatJid = row.chatJid))

/-- `MessageStore.StoreMediaInfo`: `UPDATE messages SET url, media_key,
file_sha256, file_enc_sha256, file_length WHERE id = ? AND chat_jid = ?`
(`media_type`, `content` and the rest are untouched). -/
def storeMediaInfo (id chatJid url : String) (mediaKey fileSha256 fileEncSha256 : List Nat)
    (fileLength : Nat) (messages : List MessageRow) : List MessageRow :=
  messages.map (fun m =>
    if m.id = id ∧ m.chatJid = chatJid then
      { m with url := url, mediaKey := mediaKey, fileSha256 := fileSha256,
               fileEncSha256 := fileEncSha256, fileLength := fileLength }
    else m)

/-- `MessageStore.Reset`: one transaction deleting every row of the three
tables (on any statement error the transaction rolls back, leaving the
store unchanged, which callers model separately). -/
def resetStore (_s : Store) : Store := ⟨[], [], []⟩

/-- The public write operations of `MessageStore`, as invoked by the event
pipeline and control plane. -/
inductive StoreOp where
  | chat (jid name : String) (t : Int)
  | message (row : MessageRow)
  | aliases (canonicalID : String) (as : List String) (t : Int)
  | promoteSender (canonicalID : String) (as : List String)
  | promoteChat (canonicalID : String) (as : List String)
  | mediaInfo (id chatJid url : String) (mk s1 s2 : List Nat) (len : Nat)
  | reset

def applyOp (op : StoreOp) (s : Store) : Store :=
  match op with
  | .chat jid name t => { s with chats := storeChat jid name t s.chats }
  | .message row => { s with messages := storeMessage row s.messages }
  | .aliases c as t => { s with aliases := storeSenderAliases c as t s.aliases }
  | .promoteSender c as => { s with messages := promoteCanonicalSender c as s.messages }
  | .promoteChat c as => promoteCanonicalChat c as s
  | .mediaInfo id cj url mk s1 s2 len =>
      { s with messages := storeMediaInfo id cj url mk s1 s2 len s.messages }
  | .reset => resetStore s

def runOps (ops : List StoreOp) (s : Store) : Store :=
  ops.foldl (fun acc op => applyOp op acc) s

/-- Claim C1 (code bug evidence): `StoreChat` is a blind
`INSERT OR REPLACE`, so a second upsert with an older timestamp rewinds
`last_message_time` — here from 100 down to 50 — contradicting the claimed
monotonicity. -/
theorem storeChat_rewinds_last_message_time :
    getChatLastMessageTime "123" (storeChat "123" "Alice" 50 (storeChat "123" "Alice" 100 []))
      = some (some 50) ∧ (50 : Int) < 100 := by
  constructor
  · rfl
  · decide

/-- Number of message rows carrying a given `(id, chat_jid)` primary key. -/
def messageKeyCount (id chatJid : String) (messages : List MessageRow) : Nat :=
  messages.countP (fun m => m.id = id ∧ m.chatJid = chatJid)

theorem storeMessage_cons (row : MessageRow) (db : List MessageRow)
    (hpay : ¬(row.content = "" ∧ row.mediaType = "")) :
    storeMessage row db
      = row :: db.filter (fun m => ¬(m.id = row.id ∧ m.chatJid = row.chatJid)) := by
  simp [storeMessage, hpay]

theorem storeMessage_overwrite (row2 row : MessageRow) (db : List MessageRow)
    (hpay : ¬(row.content = "" ∧ row.mediaType = ""))
    (hpay2 : ¬(row2.content = "" ∧ row2.mediaType = ""))
    (hkey : row2.id = row.id ∧ row2.chatJid = row.chatJid) :
    storeMessage row2 (storeMessage row db)
      = row2 :: db.filter (fun m => ¬(m.id = row2.id ∧ m.chatJid = row2.chatJid)) := by
  obtain ⟨hid, hcj⟩ := hkey
  rw [storeMessage_cons row db hpay, storeMessage_cons row2 _ hpay2]
  have hpeq : (fun m : MessageRow => decide ¬(m.id = row2.id ∧ m.chatJid = row2.chatJid))
      = (fun m : MessageRow => decide ¬(m.id = row.id ∧ m.chatJid = row.chatJid)) := by
    funext m
    rw [hid, hcj]
  congr 1
  rw [hpeq, List.filter_cons]
  have hrow : (decide ¬(row.id = row.id ∧ row.chatJid = row.chatJid)) = false := by
    simp
  rw [hrow]
  simp only [Bool.false_eq_true, if_false]
  rw [List.filter_filter]
  congr 1
  funext m
  rw [Bool.and_self]

theorem messageKeyCount_storeMessage (row : MessageRow) (db : List MessageRow)
    (hpay : ¬(row.content = "" ∧ row.mediaType = "")) :
    messageKeyCount row.id row.chatJid (storeMessage row db) = 1 := by
  rw [storeMessage_cons row db hpay]
  unfold messageKeyCount
  rw [List.countP_cons]
  have h0 : (db.filter (fun m => ¬(m.id = row.id ∧ m.chatJid = row.chatJid))).countP
      (fun m => m.id = row.id ∧ m.chatJid = row.chatJid) = 0 := by
    rw [List.countP_eq_zero]
    intro m hm
    have h2 := (List.mem_filter.mp hm).2
    simp only [decide_eq_true_eq] at h2 ⊢
    exact h2
  rw [h0]
  simp

/-- Claim C5: with a non-empty payload, `StoreMessage` is idempotent (any
`n ≥ 1` identical executions equal one), leaves exactly one row keyed by
`(id, chat_jid)` whose columns are the arguments, and re-ingesting the same
key with new data keeps a single row whose every column (media included)
comes from the new arguments. -/
theorem storeMessage_idempotent (row row2 : MessageRow) (db : List MessageRow) (n : Nat)
    (hpay : ¬(row.content = "" ∧ row.mediaType = ""))
    (hpay2 : ¬(row2.content = "" ∧ row2.mediaType = ""))
    (hn : 1 ≤ n)
    (hkey : row2.id = row.id ∧ row2.chatJid = row.chatJid) :
    (fun l => storeMessage row l)^[n] db = storeMessage row db
    ∧ messageKeyCount row.id row.chatJid (storeMessage row db) = 1
    ∧ (storeMessage row db).find? (fun m => m.id = row.id ∧ m.chatJid = row.chatJid)
        = some row
    ∧ messageKeyCount row2.id row2.chatJid (storeMessage row2 (storeMessage row db)) = 1
    ∧ (storeMessage row2 (storeMessage row db)).find?
        (fun m => m.id = row2.id ∧ m.chatJid = row2.chatJid) = some row2 := by
  have hstep : ∀ l, storeMessage row (storeMessage row l) = storeMessage row l := by
    intro l
    have := storeMessage_overwrite row row l hpay hpay ⟨rfl, rfl⟩
    rw [this, storeMessage_cons row l hpay]
  refine ⟨?_, messageKeyCount_storeMessage row db hpay, ?_, ?_, ?_⟩
  · obtain ⟨k, rfl⟩ := Nat.exists_eq_add_of_le hn
    clear hn
    induction k with
    | zero => simp
    | succ k ih =>
        rw [show 1 + (k + 1) = (1 + k) + 1 by omega, Function.iterate_succ_apply', ih, hstep]
  · rw [storeMessage_cons row db hpay]
    apply List.find?_cons_of_pos
    simp
  · rw [storeMessage_overwrite row2 row db hpay hpay2 hkey]
    unfold messageKeyCount
    rw [List.countP_cons]
    have h0 : (db.filter (fun m => ¬(m.id = row2.id ∧ m.chatJid = row2.chatJid))).countP
        (fun m => m.id = row2.id ∧ m.chatJid = row2.chatJid) = 0 := by
      rw [List.countP_eq_zero]
      intro m hm
      have h2 := (List.mem_filter.mp hm).2
      simp only [decide_eq_true_eq] at h2 ⊢
      exact h2
    rw [h0]
    simp
  · rw [storeMessage_overwrite row2 row db hpay hpay2 hkey]
    apply List.find?_cons_of_pos
    simp

/-- Concrete witness data for the `StoreMessage` theorems. -/
def sampleMessageRow (sender : String) : MessageRow :=
  { id := "MSG1", chatJid := "5551234", sender := sender, content := "hi", timestamp := 1,
    isFromMe := false, mediaType := "", filename := "", url := "", mediaKey := [],
    fileSha256 := [], fileEncSha256 := [], fileLength := 0 }

theorem storeMessage_idempotent_witness :
    (fun l => storeMessage (sampleMessageRow "a") l)^[2] [] =
        storeMessage (sampleMessageRow "a") []
      ∧ messageKeyCount (sampleMessageRow "a").id (sampleMessageRow "a").chatJid
          (storeMessage (sampleMessageRow "a") []) = 1
      ∧ (storeMessage (sampleMessageRow "a") []).find?
          (fun m => m.id = (sampleMessageRow "a").id
            ∧ m.chatJid = (sampleMessageRow "a").chatJid) = some (sampleMessageRow "a")
      ∧ messageKeyCount (sampleMessageRow "b").id (sampleMessageRow "b").chatJid
          (storeMessage (sampleMessageRow "b") (storeMessage (sampleMessageRow "a") [])) = 1
      ∧ (storeMessage (sampleMessageRow "b") (storeMessage (sampleMessageRow "a") [])).find?
          (fun m => m.id = (sampleMessageRow "b").id
            ∧ m.chatJid = (sampleMessageRow "b").chatJid) = some (sampleMessageRow "b") :=
  storeMessage_idempotent (sampleMessageRow "a") (sampleMessageRow "b") [] 2
    (by decide) (by decide) (by decide) ⟨rfl, rfl⟩

/-- Claim C3 (counterexample): with a canonical id that normalizes to the
empty string, `StoreSenderAliases` and `PromoteCanonicalSender` are both
no-ops (the guard `canonical == ""` returns early), so a message whose
sender lies in the normalized alias set minus the canonical id survives
untouched. -/
theorem promoteSender_misses_alias_on_empty_canonical :
    ∃ m ∈ (applyOp (.promoteSender "" ["5550001"])
        (applyOp (.aliases "" ["5550001"] 7)
          { emptyStore with messages := [sampleMessageRow "5550001"] })).messages,
      m.sender ∈ (["5550001"].map normalizeSenderID).filter (fun a => a ≠ "")
        ∧ m.sender ≠ normalizeSenderID "" := by
  refine ⟨sampleMessageRow "5550001", ?_, ?_, ?_⟩ <;> decide

theorem mem_promoteFromSet (canonical x : String) (aliases : List String)
    (hx : x ∈ (aliases.map normalizeSenderID).filter (fun a => a ≠ ""))
    (hne : x ≠ canonical) : x ∈ promoteFromSet canonical aliases := by
  unfold promoteFromSet
  rw [List.mem_dedup, List.mem_filter]
  rw [List.mem_filter] at hx
  refine ⟨hx.1, ?_⟩
  have hx2 := hx.2
  simp only [decide_eq_true_eq] at hx2 ⊢
  exact ⟨hx2, hne⟩

/-- Claim C3 (amended): provided the canonical id normalizes to a non-empty
string, after `StoreSenderAliases(C, A, t)` followed by
`PromoteCanonicalSender(C, A)` every message row whose sender lies in the
normalized alias set carries the canonical sender. -/
theorem promoteSender_clears_alias_senders (canonicalID : String) (aliases : List String)
    (t : Int) (s : Store) (h : normalizeSenderID canonicalID ≠ "") :
    ∀ m ∈ (applyOp (.promoteSender canonicalID aliases)
            (applyOp (.aliases canonicalID aliases t) s)).messages,
      m.sender ∈ (aliases.map normalizeSenderID).filter (fun a => a ≠ "") →
        m.sender = normalizeSenderID canonicalID := by
  intro m hm hsender
  set canonical := normalizeSenderID canonicalID with hcan
  by_contra hne
  have hin : m.sender ∈ promoteFromSet canonical aliases :=
    mem_promoteFromSet canonical m.sender aliases hsender hne
  have hmsgs : (applyOp (.promoteSender canonicalID aliases)
      (applyOp (.aliases canonicalID aliases t) s)).messages
      = promoteCanonicalSender canonicalID aliases s.messages := rfl
  rw [hmsgs] at hm
  unfold promoteCanonicalSender at hm
  rw [← hcan, if_neg h] at hm
  by_cases hempty : promoteFromSet canonical aliases = []
  · rw [hempty] at hin
    exact absurd hin (List.not_mem_nil _)
  · rw [if_neg hempty] at hm
    obtain ⟨m0, _, hm0⟩ := List.mem_map.mp hm
    by_cases hmem : m0.sender ∈ promoteFromSet canonical aliases
    · rw [if_pos hmem] at hm0
      apply hne
      rw [← hm0]
    · rw [if_neg hmem] at hm0
      rw [← hm0] at hin
      exact hmem hin

theorem promoteSender_clears_alias_senders_witness :
    normalizeSenderID "5550001" ≠ ""
    ∧ (∀ m ∈ (applyOp (.promoteSender "5550001" ["5550001@s.whatsapp.net", "999"])
          (applyOp (.aliases "5550001" ["5550001@s.whatsapp.net", "999"] 7)
            { emptyStore with messages := [sampleMessageRow "999"] })).messages,
        m.sender ∈ ((["5550001@s.whatsapp.net", "999"].map normalizeSenderID).filter
            (fun a => a ≠ "")) →
          m.sender = normalizeSenderID "5550001") :=
  ⟨by decide, promoteSender_clears_alias_senders "5550001" ["5550001@s.whatsapp.net", "999"] 7
    { emptyStore with messages := [sampleMessageRow "999"] } (by decide)⟩

/-- The payload invariant: a message row is never both textless and
media-less (spec invariant 4). -/
def nonEmptyPayload (m : MessageRow) : Prop := m.content ≠ "" ∨ m.mediaType ≠ ""

theorem payload_of_mem_map_sender (l : List MessageRow)
    (f : MessageRow → MessageRow)
    (hf : ∀ m, (f m).content = m.content ∧ (f m).mediaType = m.mediaType)
    (h : ∀ m ∈ l, nonEmptyPayload m) :
    ∀ m ∈ l.map f, nonEmptyPayload m := by
  intro m hm
  obtain ⟨m0, hm0, rfl⟩ := List.mem_map.mp hm
  have := h m0 hm0
  unfold nonEmptyPayload at *
  rw [(hf m0).1, (hf m0).2]
  exact this

theorem promoteChatStep_payload (canonical aliasKey : String) (s : Store)
    (h : ∀ m ∈ s.messages, nonEmptyPayload m) :
    ∀ m ∈ (promoteChatStep canonical aliasKey s).messages, nonEmptyPayload m := by
  unfold promoteChatStep
  intro m hm
  simp only at hm
  have hmap : ∀ (s1 : Store), (∀ m ∈ s1.messages, nonEmptyPayload m) →
      ∀ m ∈ s1.messages.map (fun m =>
        if m.chatJid = aliasKey then { m with chatJid := canonical } else m),
        nonEmptyPayload m := by
    intro s1 h1
    apply payload_of_mem_map_sender
    · intro m0
      by_cases hc : m0.chatJid = aliasKey <;> simp [hc]
    · exact h1
  revert hm
  cases hfind : s.chats.find? (fun c => c.jid = aliasKey) with
  | none => exact hmap s h m
  | some src =>
      cases hfind2 : s.chats.find? (fun c => c.jid = canonical) with
      | none => exact hmap { s with chats := _ } h m
      | some dst => exact hmap { s with chats := _ } h m

theorem applyOp_payload (op : StoreOp) (s : Store)
    (h : ∀ m ∈ s.messages, nonEmptyPayload m) :
    ∀ m ∈ (applyOp op s).messages, nonEmptyPayload m := by
  cases op with
  | chat jid name t => exact h
  | message row =>
      intro m hm
      unfold applyOp storeMessage at hm
      simp only at hm
      by_cases hpay : row.content = "" ∧ row.mediaType = ""
      · rw [if_pos hpay] at hm
        exact h m hm
      · rw [if_neg hpay] at hm
        rcases List.mem_cons.mp hm with rfl | hmem
        · unfold nonEmptyPayload
          tauto
        · exact h m (List.mem_filter.mp hmem).1
  | aliases c as t => exact h
  | promoteSender c as =>
      intro m hm
      unfold applyOp promoteCanonicalSender at hm
      simp only at hm
      by_cases hc : normalizeSenderID c = ""
      · rw [if_pos hc] at hm
        exact h m hm
      · rw [if_neg hc] at hm
        by_cases hempty : promoteFromSet (normalizeSenderID c) as = []
        · rw [if_pos hempty] at hm
          exact h m hm
        · rw [if_neg hempty] at hm
          revert m hm
          apply payload_of_mem_map_sender
          · intro m0
            by_cases hmem : m0.sender ∈ promoteFromSet (normalizeSenderID c) as <;>
              simp [hmem]
          · exact h
  | promoteChat c as =>
      intro m hm
      unfold applyOp promoteCanonicalChat at hm
      simp only at hm
      by_cases hc : normalizeSenderID c = ""
      · rw [if_pos hc] at hm
        exact h m hm
      · rw [if_neg hc] at hm
        by_cases hempty : promoteFromSet (normalizeSenderID c) as = []
        · rw [if_pos hempty] at hm
          exact h m hm
        · rw [if_neg hempty] at hm
          revert m hm
          generalize promoteFromSet (normalizeSenderID c) as = keys
          induction keys generalizing s with
          | nil => exact h
          | cons k rest ih =>
              intro m hm
              rw [List.foldl_cons] at hm
              exact ih (promoteChatStep (normalizeSenderID c) k s)
                (promoteChatStep_payload (normalizeSenderID c) k s h) m hm
  | mediaInfo id cj url mk s1 s2 len =>
      intro m hm
      unfold applyOp storeMediaInfo at hm
      simp only at hm
      revert m hm
      apply payload_of_mem_map_sender
      · intro m0
        by_cases hk : m0.id = id ∧ m0.chatJid = cj <;> simp [hk]
      · exact h
  | reset => intro m hm; exact absurd hm (List.not_mem_nil m)

theorem runOps_payload (ops : List StoreOp) (s : Store)
    (h : ∀ m ∈ s.messages, nonEmptyPayload m) :
    ∀ m ∈ (runOps ops s).messages, nonEmptyPayload m := by
  induction ops generalizing s with
  | nil => exact h
  | cons op rest ih =>
      intro m hm
      rw [runOps, List.foldl_cons] at hm
      exact ih (applyOp op s) (applyOp_payload op s h) m hm

/-- Claim C4: `StoreMessage` with empty content and empty media type leaves
the table untouched, and consequently every message row reachable from an
empty store through any sequence of store operations has non-empty content
or a non-empty media type. -/
theorem storeMessage_payload_invariant :
    (∀ (row : MessageRow) (db : List MessageRow),
        row.content = "" → row.mediaType = "" → storeMessage row db = db)
    ∧ ∀ (ops : List StoreOp), ∀ m ∈ (runOps ops emptyStore).messages, nonEmptyPayload m := by
  constructor
  · intro row db h1 h2
    unfold storeMessage
    rw [if_pos ⟨h1, h2⟩]
  · intro ops
    apply runOps_payload
    intro m hm
    exact absurd hm (List.not_mem_nil m)

theorem storeMessage_payload_invariant_witness :
    storeMessage { sampleMessageRow "a" with content := "", mediaType := "" } [] = []
    ∧ nonEmptyPayload (sampleMessageRow "a") :=
  ⟨storeMessage_payload_invariant.1 _ [] rfl rfl,
    storeMessage_payload_invariant.2 [.message (sampleMessageRow "a")]
      (sampleMessageRow "a") (by decide)⟩

/-! ## Control plane: the revoke handler (server.go `revokeDisconnectHandler`)

The upstream RPC outcomes (`client.Logout`, `Store.Delete`, `Reset`) are
modelled as `Option String` error results supplied by the environment; the
handler's control flow, response codes, response messages, store effects
and published auth state follow the Go source line by line.  The model
covers the `POST` path (the method gate is part of the dispatch model
below). -/

/-- Environment of one `/api/disconnect/revoke` request: whether a linked
device exists (`client.Store.ID != nil`) and the error outcome of each
upstream call (`none` = success). -/
structure RevokeWorld where
  hasLinkedDevice : Bool
  logoutError : Option String
  clearCredsError : Option String
  clearCacheError : Option String

/-- Result of the handler: HTTP status, JSON `success`/`message`, the
message store afterwards, and the auth state published via `bootstrap`
(`none` = the handler did not publish a transition). -/
structure RevokeOutcome where
  httpStatus : Nat
  success : Bool
  responseMessage : String
  store : Store
  publishedState : Option String
  deriving DecidableEq, Repr

/-- `revokeDisconnectHandler` (server.go).  `clearLocalMessageCache` is
`Reset`, which is transactional: on error the store is unchanged. -/
def revokeDisconnectHandler (w : RevokeWorld) (s : Store) : RevokeOutcome :=
  if w.hasLinkedDevice then
    match w.logoutError with
    | some logoutErr =>
        match w.clearCredsError with
        | some credsErr =>
            { httpStatus := 500, success := false,
              responseMessage := "Failed to revoke WhatsApp device (" ++ logoutErr ++
                ") and local cleanup also failed (" ++ credsErr ++ ")",
              store := s, publishedState := none }
        | none =>
            match w.clearCacheError with
            | some cacheErr =>
                { httpStatus := 500, success := false,
                  responseMessage := "Failed to revoke WhatsApp device (" ++ logoutErr ++
                    "); local credentials were cleared but message cleanup failed (" ++
                    cacheErr ++ ")",
                  store := s, publishedState := none }
            | none =>
                { httpStatus := 502, success := false,
                  responseMessage :=
                    "Failed to revoke WhatsApp device remotely. Local credentials were cleared.",
                  store := resetStore s, publishedState := some "logged_out" }
    | none =>
        match w.clearCacheError with
        | some cacheErr =>
            { httpStatus := 500, success := false,
              responseMessage := "Failed to clear local WhatsApp data: " ++ cacheErr,
              store := s, publishedState := none }
        | none =>
            { httpStatus := 200, success := true,
              responseMessage := "WhatsApp device revoked and local credentials cleared",
              store := resetStore s, publishedState := some "logged_out" }
  else
    match w.clearCacheError with
    | some cacheErr =>
        { httpStatus := 500, success := false,
          responseMessage := "Failed to clear local WhatsApp data: " ++ cacheErr,
          store := s, publishedState := none }
    | none =>
        { httpStatus := 200, success := true,
          responseMessage := "WhatsApp device revoked and local credentials cleared",
          store := resetStore s, publishedState := some "logged_out" }

/-- Substring test over character lists (kernel-evaluable). -/
def containsSub (hay pat : List Char) : Bool :=
  (List.range (hay.length + 1)).any (fun i => pat.isPrefixOf (hay.drop i))

/-- Claim C2 (counterexample): when remote logout fails with error
`remote boom` and both local cleanups succeed, the handler does answer 502,
but its fixed message carries neither error value — in particular not the
remote logout error — so the response does not carry "both errors". -/
theorem revoke_502_message_carries_no_errors :
    (revokeDisconnectHandler ⟨true, some "remote boom", none, none⟩ emptyStore).httpStatus = 502
    ∧ containsSub (revokeDisconnectHandler ⟨true, some "remote boom", none, none⟩
        emptyStore).responseMessage.data "remote boom".data = false := by
  constructor
  · rfl
  · decide

/-- Claim C2 (amended): when the remote logout RPC fails on a linked device
and both local cleanup steps succeed, the handler still wipes the cache in
full (messages, chats, sender aliases all emptied), publishes
`logged_out`, and answers 502 with a fixed message reporting the remote
failure and the local wipe (the error values themselves are only embedded
in the 500 responses of the cleanup-failure paths). -/
theorem revoke_partial_failure_spec (err : String) (s : Store) :
    (revokeDisconnectHandler ⟨true, some err, none, none⟩ s).httpStatus = 502
    ∧ (revokeDisconnectHandler ⟨true, some err, none, none⟩ s).success = false
    ∧ (revokeDisconnectHandler ⟨true, some err, none, none⟩ s).store.messages = []
    ∧ (revokeDisconnectHandler ⟨true, some err, none, none⟩ s).store.chats = []
    ∧ (revokeDisconnectHandler ⟨true, some err, none, none⟩ s).store.aliases = []
    ∧ (revokeDisconnectHandler ⟨true, some err, none, none⟩ s).publishedState
        = some "logged_out"
    ∧ (revokeDisconnectHandler ⟨true, some err, none, none⟩ s).responseMessage
        = "Failed to revoke WhatsApp device remotely. Local credentials were cleared." := by
  refine ⟨rfl, rfl, rfl, rfl, rfl, rfl, rfl⟩

/-! ## Control plane: routing and bearer-token auth (server.go)

`jwt.ParseWithClaims` (signature, audience, issuer, expiry validation) is
abstracted as an oracle `parse : String → Option BridgeClaims`; everything
after it — the header shape check, the per-route scope table, the claims
field checks, and the `net/http` mux dispatch — is translated from the
source.  The Go `ServeMux` matches the six registered patterns exactly
(no trailing-slash patterns are registered) and answers 404 otherwise. -/

/-- The JWT claims fields the bridge inspects after parsing. -/
structure BridgeClaims where
  scope : String
  runtimeId : String
  subject : String
  hasExpiresAt : Bool
  hasIssuedAt : Bool

/-- Split a character list at separators (runs between separators,
empties included — Go `strings.FieldsFunc` then drops the empties). -/
def splitFieldChars (sep : Char → Bool) : List Char → List (List Char)
  | [] => [[]]
  | c :: rest =>
      let r := splitFieldChars sep rest
      if sep c then [] :: r
      else (c :: r.headD []) :: r.tail

/-- Go `strings.FieldsFunc`: the maximal runs of non-separator characters. -/
def goFieldsFunc (s : String) (sep : Char → Bool) : List String :=
  ((splitFieldChars sep s.data).filter (fun w => w ≠ [])).map (fun w => ⟨w⟩)

/-- `requiredScopeForRoute` (server.go): the six registered method+path
pairs and their scopes. -/
def requiredScopeForRoute (method path : String) : Option String :=
  if method = "POST" ∧ path = "/api/send" then some "whatsapp:send"
  else if method = "POST" ∧ path = "/api/download" then some "whatsapp:download"
  else if method = "POST" ∧ path = "/api/connect" then some "whatsapp:connect"
  else if method = "GET" ∧ path = "/api/auth/status" then some "whatsapp:status"
  else if method = "POST" ∧ path = "/api/disconnect" then some "whatsapp:disconnect"
  else if method = "POST" ∧ path = "/api/disconnect/revoke" then some "whatsapp:disconnect"
  else none

/-- `hasRequiredScope` (server.go): the space/comma-separated scope claim
must contain the required scope or the wildcard. -/
def hasRequiredScope (claimScope requiredScope : String) : Bool :=
  if requiredScope = "" then false
  else (goFieldsFunc claimScope (fun c => c = ',' ∨ c = ' ')).any
    (fun scope => scope = requiredScope ∨ scope = "whatsapp:*")

/-- Outcome of `withRequiredBridgeJWTAuth` before the wrapped handler. -/
inductive AuthDecision where
  | unauthorized
  | forbidden
  | allow (claims : BridgeClaims)

def bearerTag : List Char := "Bearer ".data

/-- `withRequiredBridgeJWTAuth` (server.go): header shape, route scope
lookup, token parse, claims checks, scope check — in source order. -/
def bridgeJWTAuth (parse : String → Option BridgeClaims) (method path rawHeader : String) :
    AuthDecision :=
  if ¬((goTrim rawHeader).data.length > bearerTag.length
      ∧ bearerTag.isPrefixOf (goTrim rawHeader).data) then
    .unauthorized
  else
    match requiredScopeForRoute method path with
    | none => .forbidden
    | some requiredScope =>
        match parse (goTrim ⟨(goTrim rawHeader).data.drop bearerTag.length⟩) with
        | none => .unauthorized
        | some claims =>
            if ¬(claims.hasExpiresAt ∧ claims.hasIssuedAt ∧ goTrim claims.subject ≠ "") then
              .unauthorized
            else if goTrim claims.runtimeId = "" then .unauthorized
            else if ¬ hasRequiredScope claims.scope requiredScope then .forbidden
            else .allow claims

/-- The six patterns registered on the mux in `StartRESTServer`. -/
def routePaths : List String :=
  ["/api/send", "/api/download", "/api/connect", "/api/auth/status",
   "/api/disconnect", "/api/disconnect/revoke"]

/-- The HTTP method each handler accepts (all are POST-only except the
status route, whose handler accepts only GET). -/
def routeMethod (path : String) : String :=
  if path = "/api/auth/status" then "GET" else "POST"

/-- Result of dispatching one request: either an error status produced by
the mux / auth wrapper / handler method gate, or the handler body running
for a route. -/
inductive HttpResult where
  | errorStatus (code : Nat)
  | served (route : String)
  deriving DecidableEq, Repr

/-- The per-handler method gate (each handler's
`if r.Method != ... { 405 }` prologue); past it the handler body runs. -/
def routeHandler (path method : String) : HttpResult :=
  if method ≠ routeMethod path then .errorStatus 405 else .served path

/-- The bridge server: exact-pattern mux dispatch, every route wrapped in
`withRequiredBridgeJWTAuth`. -/
def serveBridge (parse : String → Option BridgeClaims) (method path rawHeader : String) :
    HttpResult :=
  if path ∈ routePaths then
    match bridgeJWTAuth parse method path rawHeader with
    | .unauthorized => .errorStatus 401
    | .forbidden => .errorStatus 403
    | .allow _ => routeHandler path method
  else .errorStatus 404

/-- A parse oracle accepting any token with full wildcard scope. -/
def demoParse : String → Option BridgeClaims :=
  fun _ => some { scope := "whatsapp:*", runtimeId := "rt", subject := "sub",
                  hasExpiresAt := true, hasIssuedAt := true }

/-- Claim C7 (counterexample): a known path with the wrong method — here
`GET /api/send` with a fully-scoped valid token — is answered 403 by the
auth wrapper (whose route table is keyed by method+path), not the claimed
405. -/
theorem wrong_method_yields_403_not_405 :
    serveBridge demoParse "GET" "/api/send" "Bearer tok" = .errorStatus 403
    ∧ (403 : Nat) ≠ 405 ∧ (403 : Nat) ≠ 404 := by
  refine ⟨?_, by decide, by decide⟩
  decide

theorem requiredScope_some_route (method path req : String)
    (h : requiredScopeForRoute method path = some req) :
    path ∈ routePaths ∧ method = routeMethod path := by
  unfold requiredScopeForRoute at h
  split_ifs at h with h1 h2 h3 h4 h5 h6
  · exact ⟨by rw [h1.2]; decide, by rw [h1.1, h1.2]; decide⟩
  · exact ⟨by rw [h2.2]; decide, by rw [h2.1, h2.2]; decide⟩
  · exact ⟨by rw [h3.2]; decide, by rw [h3.1, h3.2]; decide⟩
  · exact ⟨by rw [h4.2]; decide, by rw [h4.1, h4.2]; decide⟩
  · exact ⟨by rw [h5.2]; decide, by rw [h5.1, h5.2]; decide⟩
  · exact ⟨by rw [h6.2]; decide, by rw [h6.1, h6.2]; decide⟩

theorem bridgeJWTAuth_allow (parse : String → Option BridgeClaims)
    (method path rawHeader : String) (claims : BridgeClaims)
    (h : bridgeJWTAuth parse method path rawHeader = .allow claims) :
    ∃ req, requiredScopeForRoute method path = some req
      ∧ hasRequiredScope claims.scope req = true := by
  unfold bridgeJWTAuth at h
  split at h
  · simp at h
  · split at h
    · simp at h
    · rename_i req hreq
      split at h
      · simp at h
      · split_ifs at h with hc1 hc2 hc3
        simp at h
        subst h
        exact ⟨req, hreq, hc3⟩

/-- Claim C7 (amended): a request to an unregistered path is answered 404;
a registered path with the wrong method is rejected by the auth wrapper
with 401 (no/invalid bearer) or 403 (its method+path scope lookup fails) —
never 405 — and a handler body only ever runs when the bearer-token scope
check for its route has passed. -/
theorem bridge_routing_auth (parse : String → Option BridgeClaims)
    (method path rawHeader : String) :
    (path ∉ routePaths → serveBridge parse method path rawHeader = .errorStatus 404)
    ∧ (path ∈ routePaths → method ≠ routeMethod path →
        serveBridge parse method path rawHeader = .errorStatus 401
        ∨ serveBridge parse method path rawHeader = .errorStatus 403)
    ∧ (∀ r, serveBridge parse method path rawHeader = .served r →
        r = path ∧ method = routeMethod path
        ∧ ∃ claims req, bridgeJWTAuth parse method path rawHeader = .allow claims
            ∧ requiredScopeForRoute method path = some req
            ∧ hasRequiredScope claims.scope req = true) := by
  refine ⟨?_, ?_, ?_⟩
  · intro hnot
    unfold serveBridge
    rw [if_neg hnot]
  · intro hmem hneq
    have hscope : requiredScopeForRoute method path = none := by
      cases hr : requiredScopeForRoute method path with
      | none => rfl
      | some req => exact absurd (requiredScope_some_route method path req hr).2 hneq
    unfold serveBridge
    rw [if_pos hmem]
    cases hauth : bridgeJWTAuth parse method path rawHeader with
    | unauthorized => left; rfl
    | forbidden => right; rfl
    | allow claims =>
        obtain ⟨req, hreq, _⟩ := bridgeJWTAuth_allow parse method path rawHeader claims hauth
        rw [hscope] at hreq
        exact absurd hreq (by simp)
  · intro r h
    unfold serveBridge at h
    by_cases hmem : path ∈ routePaths
    · rw [if_pos hmem] at h
      cases hauth : bridgeJWTAuth parse method path rawHeader with
      | unauthorized => rw [hauth] at h; simp at h
      | forbidden => rw [hauth] at h; simp at h
      | allow claims =>
          rw [hauth] at h
          unfold routeHandler at h
          by_cases hm : method ≠ routeMethod path
          · rw [if_pos hm] at h; simp at h
          · rw [if_neg hm] at h
            cases h
            obtain ⟨req, hreq, hscope⟩ :=
              bridgeJWTAuth_allow parse method path rawHeader claims hauth
            exact ⟨rfl, not_not.mp hm, claims, req, rfl, hreq, hscope⟩
    · rw [if_neg hmem] at h
      simp at h

theorem bridge_routing_auth_witness :
    serveBridge demoParse "POST" "/nope" "Bearer tok" = .errorStatus 404 :=
  (bridge_routing_auth demoParse "POST" "/nope" "Bearer tok").1 (by decide)

/-! ## Event pipeline: history sync progress (sync.go `handleHistorySync`)

Every iteration of the conversation loop — whatever branch it takes
(missing conversation id, unparsable id, empty message list, nil latest
message, zero timestamp, or full processing) — ends in exactly one
`updateProgress(idx+1)` call, so the published status trace depends only
on the number of conversations; the store writes performed along the way
are the `StoreOp`s modelled above.  The trace model is therefore
polymorphic in the conversation payload. -/

/-- The status fields published through `bootstrap` that the claim
observes. -/
structure SyncStatus where
  state : String
  syncProgress : Nat
  syncCurrent : Nat
  syncTotal : Nat
  deriving DecidableEq, Repr

/-- `bootstrap.clampProgress` (the Go `int` is never negative on these
paths, so the lower clamp is inert and the value is a `Nat`). -/
def clampProgress (p : Nat) : Nat := if p > 100 then 100 else p

/-! The progress expression `int(float64(processed)/float64(total)*70)`
is floating point, so it is modelled in exact IEEE-754 binary64
semantics: a finite positive double is a pair `(m, e) : Nat × Int` with
value `m · 2^(e-52)`, and every operation rounds to 53 significant bits,
nearest, ties to even.  Both operands of the division are Go `int`s
(`idx+1` and `len(conversations)`), hence below `2^63`, so every
intermediate value stays in the binary64 normal finite range and this
model is exact. -/

/-- `Nat.log2` with fuel-bounded structural recursion, so the kernel can
evaluate it (`Nat.log2` itself is well-founded recursion); each step
halves `n`, so `n` itself is always enough fuel. -/
def natLog2Fuel : Nat → Nat → Nat
  | 0, _ => 0
  | fuel + 1, n => if 2 ≤ n then natLog2Fuel fuel (n / 2) + 1 else 0

def natLog2 (n : Nat) : Nat := natLog2Fuel n n

/-- The exponent `e` with `2^e ≤ a/b < 2^(e+1)` for positive `a`, `b`. -/
def ratNormExp (a b : Nat) : Int :=
  let la := natLog2 a
  let lb := natLog2 b
  if lb ≤ la then
    (if b * 2 ^ (la - lb) ≤ a then ((la - lb : Nat) : Int) else ((la - lb : Nat) : Int) - 1)
  else
    (if b ≤ a * 2 ^ (lb - la) then -((lb - la : Nat) : Int) else -((lb - la : Nat) : Int) - 1)

/-- Round the positive rational `a/b` to 53 significant bits (nearest,
ties to even): the mantissa/exponent pair `(m, e)` of the nearest
binary64, with value `m · 2^(e-52)`.  The scaled quotient
`(a/b) · 2^(52-e)` lies in `[2^52, 2^53)`; its integer part and remainder
drive the rounding. -/
def roundMantissa (a b : Nat) : Nat × Int :=
  let e := ratNormExp a b
  let num := if 0 ≤ 52 - e then a * 2 ^ (52 - e).toNat else a
  let den := if 0 ≤ 52 - e then b else b * 2 ^ (e - 52).toNat
  let n := num / den
  let r := num % den
  let rounded :=
    if den < 2 * r then n + 1
    else if 2 * r < den then n
    else if n % 2 = 0 then n else n + 1
  (rounded, e)

/-- Go `float64(n)` for a non-negative integer (exact below `2^53`,
rounded to nearest even above). -/
def natToF64 (n : Nat) : Nat × Int :=
  if n = 0 then (0, 0) else roundMantissa n 1

/-- IEEE binary64 division `x / y`: the correctly rounded exact quotient
`(x.1/y.1) · 2^(x.2-y.2)`.  (`y.1 = 0` would be a division by zero; the
caller's `total ≤ 0` guard keeps it unreachable.) -/
def f64Div (x y : Nat × Int) : Nat × Int :=
  if x.1 = 0 then (0, 0)
  else
    let me := roundMantissa x.1 y.1
    (me.1, me.2 + x.2 - y.2)

/-- IEEE binary64 multiplication by a small integer constant (70 is
exactly representable): the correctly rounded exact product
`(x.1 · k) · 2^(x.2-52)`. -/
def f64MulNat (x : Nat × Int) (k : Nat) : Nat × Int :=
  if x.1 * k = 0 then (0, 0)
  else
    let me := roundMantissa (x.1 * k) 1
    (me.1, me.2 + x.2 - 52)

/-- Go `int(f)` for a non-negative double: truncation toward zero. -/
def f64TruncNat (x : Nat × Int) : Nat :=
  if 0 ≤ x.2 - 52 then x.1 * 2 ^ (x.2 - 52).toNat else x.1 / 2 ^ (52 - x.2).toNat

/-- Go `int(float64(processed)/float64(total)*70)` (sync.go), in exact
binary64 semantics: convert both operands, divide, multiply by 70,
truncate. -/
def goProgressFrac (processed total : Nat) : Nat :=
  f64TruncNat (f64MulNat (f64Div (natToF64 processed) (natToF64 total)) 70)

/-- The value computed by `updateProgress` in `handleHistorySync`:
`progress := 25 + int(float64(processed)/float64(total)*70)`, capped
at 95. -/
def updateProgressValue (processed total : Nat) : Nat :=
  let progress := 25 + goProgressFrac processed total
  if progress > 95 then 95 else progress

/-- The statuses published by the conversation loop from index `idx` on:
one `SetSyncingProgress` per conversation (`updateProgress` returns
without publishing when `total ≤ 0`). -/
def historySyncLoop (total : Nat) : List α → Nat → List SyncStatus
  | [], _ => []
  | _ :: rest, idx =>
      (if 0 < total then
        [{ state := "syncing",
           syncProgress := clampProgress (updateProgressValue (idx + 1) total),
           syncCurrent := idx + 1, syncTotal := total }]
      else []) ++ historySyncLoop total rest (idx + 1)

/-- The full status trace of `handleHistorySync` on a batch: the initial
`SetSyncing(25, 0, total)` (only when `total > 0`), the per-conversation
progress, and the final `SetConnected` (only when `total > 0`; it
publishes progress 100 and zero counters). -/
def handleHistorySyncTrace (convs : List α) : List SyncStatus :=
  let total := convs.length
  (if 0 < total then
    [{ state := "syncing", syncProgress := clampProgress 25,
       syncCurrent := 0, syncTotal := total }]
  else [])
  ++ historySyncLoop total convs 0
  ++ (if 0 < total then
    [{ state := "connected", syncProgress := 100, syncCurrent := 0, syncTotal := 0 }]
  else [])

theorem historySyncLoop_closed {α : Type} (total : Nat) (htotal : 0 < total)
    (convs : List α) :
    ∀ idx, historySyncLoop total convs idx
      = (List.range convs.length).map (fun k =>
          { state := "syncing",
            syncProgress := clampProgress (updateProgressValue (idx + k + 1) total),
            syncCurrent := idx + k + 1, syncTotal := total }) := by
  induction convs with
  | nil => intro idx; rfl
  | cons c rest ih =>
      intro idx
      have hstep : historySyncLoop total (c :: rest) idx
          = { state := "syncing",
              syncProgress := clampProgress (updateProgressValue (idx + 1) total),
              syncCurrent := idx + 1, syncTotal := total } ::
            historySyncLoop total rest (idx + 1) := by
        simp [historySyncLoop, htotal]
      rw [hstep, ih (idx + 1), List.length_cons, List.range_succ_eq_map, List.map_cons,
        List.map_map]
      have hfun : ((fun k =>
            ({ state := "syncing",
               syncProgress := clampProgress (updateProgressValue (idx + k + 1) total),
               syncCurrent := idx + k + 1, syncTotal := total } : SyncStatus)) ∘ Nat.succ)
          = fun k =>
            ({ state := "syncing",
               syncProgress := clampProgress (updateProgressValue (idx + 1 + k + 1) total),
               syncCurrent := idx + 1 + k + 1, syncTotal := total } : SyncStatus) := by
        funext k
        have h1 : idx + (k + 1) + 1 = idx + 1 + k + 1 := by omega
        simp [Function.comp, Nat.succ_eq_add_one, h1]
      rw [hfun]

set_option maxRecDepth 10000 in
/-- Claim C8 (counterexample): for a batch of 70 conversations the 47th
per-conversation status published by the loop carries progress 71 —
`int(float64(47)/float64(70)*70)` evaluates to 46 in binary64, one below
the exact `⌊70·47/70⌋ = 47` — so the published progress does not equal
`25 + 70·processed/N` (clamped to 95) as the claim's formula, read as
exact arithmetic, requires. -/
theorem historySync_progress_float_cex :
    (historySyncLoop 70 (List.replicate 70 ()) 0).get? 46
      = some { state := "syncing", syncProgress := 71, syncCurrent := 47, syncTotal := 70 }
    ∧ (if 25 + 70 * 47 / 70 > 95 then 95 else 25 + 70 * 47 / 70) = 72
    ∧ (71 : Nat) ≠ 72 := by
  refine ⟨?_, by decide, by decide⟩
  have h := historySyncLoop_closed (α := Unit) 70 (by decide) (List.replicate 70 ()) 0
  rw [List.length_replicate] at h
  rw [h, List.get?_eq_getElem?, List.getElem?_map, List.getElem?_range
    (by decide : (46 : Nat) < 70)]
  decide

theorem updateProgressValue_bounds (processed total : Nat) :
    25 ≤ clampProgress (updateProgressValue processed total)
    ∧ clampProgress (updateProgressValue processed total) ≤ 95 := by
  simp only [clampProgress, updateProgressValue]
  split_ifs <;> omega

set_option maxRecDepth 10000 in
set_option maxHeartbeats 40000000 in
/-- Claim C8 (amended): for a history batch of `N > 0` conversations the
first published status is `syncing` with `sync_total = N` and progress 25;
each per-conversation status carries progress
`25 + int(float64(processed)/float64(N)·70)` capped at 95 — the code's own
float computation, which the counterexample above shows can fall one below
the exact `25 + ⌊70·processed/N⌋` (first at `N = 70`, `processed = 47`) —
and always lies in `[25, 95]`; the terminal status is `connected`; and for
`N = 10` the per-conversation progress values are exactly `32, 39, …, 95`
— strictly increasing and inside `[25, 95]`. -/
theorem historySync_progress {α : Type} (convs : List α) (h : 0 < convs.length) :
    (handleHistorySyncTrace convs).head? = some
      { state := "syncing", syncProgress := 25, syncCurrent := 0,
        syncTotal := convs.length }
    ∧ (handleHistorySyncTrace convs).getLast? = some
      { state := "connected", syncProgress := 100, syncCurrent := 0, syncTotal := 0 }
    ∧ historySyncLoop convs.length convs 0
      = (List.range convs.length).map (fun k =>
          { state := "syncing",
            syncProgress := clampProgress (updateProgressValue (k + 1) convs.length),
            syncCurrent := k + 1, syncTotal := convs.length })
    ∧ (∀ st ∈ historySyncLoop convs.length convs 0,
        25 ≤ st.syncProgress ∧ st.syncProgress ≤ 95)
    ∧ (convs.length = 10 →
        (historySyncLoop convs.length convs 0).map (·.syncProgress)
            = [32, 39, 46, 53, 60, 67, 74, 81, 88, 95]
        ∧ List.Pairwise (· < ·) ((historySyncLoop convs.length convs 0).map (·.syncProgress))
        ∧ ∀ st ∈ historySyncLoop convs.length convs 0,
            25 ≤ st.syncProgress ∧ st.syncProgress ≤ 95) := by
  have hclosed := historySyncLoop_closed convs.length h convs 0
  have hclosed0 : historySyncLoop convs.length convs 0
      = (List.range convs.length).map (fun k =>
          { state := "syncing",
            syncProgress := clampProgress (updateProgressValue (k + 1) convs.length),
            syncCurrent := k + 1, syncTotal := convs.length }) := by
    rw [hclosed]
    apply List.map_congr_left
    intro k _
    rw [Nat.zero_add]
  refine ⟨?_, ?_, hclosed0, ?_, ?_⟩
  · simp only [handleHistorySyncTrace, if_pos h]
    rfl
  · simp only [handleHistorySyncTrace, if_pos h]
    rw [List.getLast?_concat]
  · intro st hst
    rw [hclosed0] at hst
    obtain ⟨k, _, rfl⟩ := List.mem_map.mp hst
    exact updateProgressValue_bounds (k + 1) convs.length
  · intro h10
    rw [hclosed0, h10]
    refine ⟨?_, ?_, ?_⟩ <;> decide

theorem historySync_progress_witness :
    (handleHistorySyncTrace (List.replicate 10 ())).head? = some
      { state := "syncing", syncProgress := 25, syncCurrent := 0,
        syncTotal := (List.replicate 10 ()).length } :=
  (historySync_progress (List.replicate 10 ()) (by decide)).1

/-! ## Identity resolver (resolver.go)

The whatsmeow client state the resolver consults — the LID↔PN index, the
contact store and group info — is abstracted as lookup functions (`none`
models a lookup error); the resolver logic itself is translated from the
source. -/

/-- whatsmeow `types.JID`, restricted to the fields the bridge reads
(`RawAgent`/`Integrator` are never set on these code paths). -/
structure JID where
  user : String
  server : String
  device : Nat
  deriving DecidableEq, Repr

def emptyJID : JID := ⟨"", "", 0⟩

/-- `types.JID.ToNonAD`: drop the device part. -/
def JID.toNonAD (j : JID) : JID := { j with device := 0 }

/-- `types.JID.IsEmpty`: whatsmeow tests the server part. -/
def JID.isEmpty (j : JID) : Bool := j.server = ""

/-- `types.JID.String()` (for the device-carrying form whatsmeow renders
`user:device@server`). -/
def JID.render (j : JID) : String :=
  if 0 < j.device then j.user ++ ":" ++ toString j.device ++ "@" ++ j.server
  else if j.user = "" then j.server
  else j.user ++ "@" ++ j.server

/-- whatsmeow `types.DefaultUserServer`. -/
def defaultUserServer : String := "s.whatsapp.net"

/-- whatsmeow `types.HiddenUserServer`. -/
def hiddenUserServer : String := "lid"

/-- The client state consulted by the resolver and `getChatName`:
`Store.LIDs.GetPNForLID` / `GetLIDForPN`, `Store.Contacts.GetContact`
(its `FullName`), `GetGroupInfo` (its `Name`), and `Store.ID`.  `none`
models a lookup error. -/
structure ClientModel where
  lidToPN : JID → Option JID
  pnToLID : JID → Option JID
  contactFullName : JID → Option String
  groupName : JID → Option String
  storeID : Option JID

/-- `canonicalizeSender` (resolver.go): prefer a phone-number alternate,
resolve hidden-space ids through the LID→PN index, return the bare user
part. -/
def canonicalizeSender (client : Option ClientModel) (senderJID senderAlt : JID) : String :=
  let senderJID := senderJID.toNonAD
  let senderAlt := senderAlt.toNonAD
  if senderJID.isEmpty then ""
  else
    let canonical := if ¬ senderAlt.isEmpty ∧ senderAlt.server = defaultUserServer
      then senderAlt else senderJID
    let canonical :=
      if canonical.server = hiddenUserServer then
        match client with
        | some c =>
            match c.lidToPN canonical with
            | some pn => if ¬ pn.isEmpty then pn.toNonAD else canonical
            | none => canonical
        | none => canonical
      else canonical
    if canonical.user ≠ "" then canonical.user else senderJID.user

/-- The cross-address-space aliases contributed by one JID in
`senderAliasIDs` (LID→PN for hidden ids, PN→LID for phone ids). -/
def crossSpaceAlias (c : ClientModel) (j : JID) : List String :=
  if j.server = hiddenUserServer then
    match c.lidToPN j with
    | some pn => if ¬ pn.isEmpty then [pn.user] else []
    | none => []
  else if j.server = defaultUserServer then
    match c.pnToLID j with
    | some lid => if ¬ lid.isEmpty then [lid.user] else []
    | none => []
  else []

/-- `senderAliasIDs` (resolver.go): deduplicated normalized non-empty
alias ids (Go builds a map; the model keeps first-occurrence order). -/
def senderAliasIDs (client : Option ClientModel) (senderJID senderAlt : JID)
    (canonicalID : String) : List String :=
  let senderJID := senderJID.toNonAD
  let senderAlt := senderAlt.toNonAD
  let base := [canonicalID, senderJID.user, senderAlt.user]
  let extra := match client with
    | none => []
    | some c => crossSpaceAlias c senderJID ++ crossSpaceAlias c senderAlt
  (((base ++ extra).map normalizeSenderID).filter (fun a => a ≠ "")).dedup

/-- `canonicalizeChatID` (resolver.go): groups keep their full
`user@g.us` string; personal chats go through `canonicalizeSender`. -/
def canonicalizeChatID (client : Option ClientModel) (chatJID : JID) : String :=
  let normalized := chatJID.toNonAD
  if normalized.isEmpty then ""
  else if normalized.server = "g.us" then normalized.render
  else canonicalizeSender client normalized emptyJID

/-- `chatAliasIDs` (resolver.go): empty for groups and empty JIDs,
otherwise the sender alias set of the chat JID. -/
def chatAliasIDs (client : Option ClientModel) (chatJID : JID) (canonicalChatID : String) :
    List String :=
  let normalized := chatJID.toNonAD
  if normalized.isEmpty ∨ normalized.server = "g.us" then []
  else senderAliasIDs client normalized emptyJID canonicalChatID

/-- Claim C9: for every group JID `G@g.us` with non-empty `G` and every
client state, `canonicalizeChatID` returns the full `G@g.us` string and
the chat alias set is empty. -/
theorem canonicalizeChatID_group (client : Option ClientModel) (jid : JID)
    (canonicalChatID : String) (hserver : jid.server = "g.us") (huser : jid.user ≠ "") :
    canonicalizeChatID client jid = jid.user ++ "@g.us"
    ∧ chatAliasIDs client jid canonicalChatID = [] := by
  constructor
  · have h1 : canonicalizeChatID client jid = (jid.toNonAD).render := by
      simp [canonicalizeChatID, JID.isEmpty, JID.toNonAD, hserver]
    rw [h1]
    unfold JID.render JID.toNonAD
    simp only [hserver]
    rw [if_neg (by simp), if_neg (by simpa using huser)]
    rw [String.append_assoc]
    congr 1
  · simp [chatAliasIDs, JID.isEmpty, JID.toNonAD, hserver]

theorem canonicalizeChatID_group_witness :
    canonicalizeChatID none ⟨"120363024375560616", "g.us", 0⟩
        = "120363024375560616" ++ "@g.us"
    ∧ chatAliasIDs none ⟨"120363024375560616", "g.us", 0⟩ "" = [] :=
  canonicalizeChatID_group none ⟨"120363024375560616", "g.us", 0⟩ ""
    (by decide) (by decide)

/-! ## Event pipeline: live messages (sync.go `handleMessage`) -/

/-- Media payload fields shared by the four media message kinds. -/
structure MediaPart where
  url : String
  mediaKey : List Nat
  fileSha256 : List Nat
  fileEncSha256 : List Nat
  fileLength : Nat
  fileName : String
  deriving DecidableEq, Repr

/-- The `waProto.Message` fields the bridge reads. -/
structure ProtoMessage where
  conversation : String
  extendedText : Option String
  imageMessage : Option MediaPart
  videoMessage : Option MediaPart
  audioMessage : Option MediaPart
  documentMessage : Option MediaPart
  deriving DecidableEq, Repr

/-- `extractTextContent` (messaging.go): plain conversation text first,
then extended text. -/
def extractTextContent (msg : Option ProtoMessage) : String :=
  match msg with
  | none => ""
  | some m =>
      if m.conversation ≠ "" then m.conversation
      else match m.extendedText with
        | some ext => ext
        | none => ""

/-- The tuple returned by `extractMediaInfo`. -/
structure MediaInfo where
  mediaType : String
  filename : String
  url : String
  mediaKey : List Nat
  fileSha256 : List Nat
  fileEncSha256 : List Nat
  fileLength : Nat
  deriving DecidableEq, Repr

def emptyMediaInfo : MediaInfo := ⟨"", "", "", [], [], [], 0⟩

/-- `extractMediaInfo` (messaging.go); `nowStamp` stands for the
`time.Now().Format("20060102_150405")` component of generated
filenames. -/
def extractMediaInfo (nowStamp : String) (msg : Option ProtoMessage) : MediaInfo :=
  match msg with
  | none => emptyMediaInfo
  | some m =>
      match m.imageMessage with
      | some img => ⟨"image", "image_" ++ nowStamp ++ ".jpg", img.url, img.mediaKey,
          img.fileSha256, img.fileEncSha256, img.fileLength⟩
      | none =>
        match m.videoMessage with
        | some vid => ⟨"video", "video_" ++ nowStamp ++ ".mp4", vid.url, vid.mediaKey,
            vid.fileSha256, vid.fileEncSha256, vid.fileLength⟩
        | none =>
          match m.audioMessage with
          | some aud => ⟨"audio", "audio_" ++ nowStamp ++ ".ogg", aud.url, aud.mediaKey,
              aud.fileSha256, aud.fileEncSha256, aud.fileLength⟩
          | none =>
            match m.documentMessage with
            | some doc => ⟨"document",
                (if doc.fileName = "" then "document_" ++ nowStamp else doc.fileName),
                doc.url, doc.mediaKey, doc.fileSha256, doc.fileEncSha256, doc.fileLength⟩
            | none => emptyMediaInfo

/-- `MessageStore.GetChatName`: `SELECT name FROM chats WHERE jid = ?`
(scanning a SQL NULL into a Go string errors, which the caller treats the
same as a missing row). -/
def storedChatName (chats : List ChatRow) (jid : String) : Option String :=
  (chats.find? (fun c => c.jid = jid)).bind (fun c => c.name)

/-- `getChatName` (sync.go), with the live-message call shape
(`conversation` reflection fields passed explicitly; both are `none` for
live messages). -/
def getChatName (client : Option ClientModel) (chats : List ChatRow) (jid : JID)
    (chatJID : String) (convDisplayName convName : Option String) (sender : String) :
    String :=
  let existing := (storedChatName chats chatJID).getD ""
  if existing ≠ "" then existing
  else if jid.server = "g.us" then
    let fromConv :=
      if (convDisplayName.getD "") ≠ "" then convDisplayName.getD ""
      else if (convName.getD "") ≠ "" then convName.getD ""
      else ""
    if fromConv ≠ "" then fromConv
    else
      match client with
      | some c =>
          match c.groupName jid with
          | some gn => if gn ≠ "" then gn else "Group " ++ jid.user
          | none => "Group " ++ jid.user
      | none => "Group " ++ jid.user
  else
    let fromContact := match client with
      | some c => (c.contactFullName jid).getD ""
      | none => ""
    if fromContact ≠ "" then fromContact
    else if sender ≠ "" then sender
    else jid.user

/-- One live `events.Message` as the handler reads it. -/
structure MessageEvent where
  chat : JID
  sender : JID
  senderAlt : JID
  id : String
  timestamp : Int
  isFromMe : Bool
  message : Option ProtoMessage
  deriving DecidableEq, Repr

/-- `handleMessage` (sync.go): upsert the chat row first, then drop
empty-payload messages, then sync sender aliases (upsert + promote), for
personal chats also chat aliases (upsert + promote), and finally upsert
the message row. -/
def handleMessage (client : Option ClientModel) (nowStamp : String) (ev : MessageEvent)
    (s : Store) : Store :=
  let chatJID := ev.chat.toNonAD
  let chatID := canonicalizeChatID client chatJID
  let sender := canonicalizeSender client ev.sender ev.senderAlt
  let name := getChatName client s.chats chatJID chatID none none sender
  let s1 : Store := { s with chats := storeChat chatID name ev.timestamp s.chats }
  let content := extractTextContent ev.message
  let mi := extractMediaInfo nowStamp ev.message
  if content = "" ∧ mi.mediaType = "" then s1
  else
    let aliasIDs := senderAliasIDs client ev.sender ev.senderAlt sender
    let s2 : Store := { s1 with
      aliases := storeSenderAliases sender aliasIDs ev.timestamp s1.aliases,
      messages := promoteCanonicalSender sender aliasIDs s1.messages }
    let s3 : Store :=
      if chatJID.server ≠ "g.us" then
        let chatAliases := chatAliasIDs client chatJID chatID
        promoteCanonicalChat chatID chatAliases
          { s2 with aliases := storeSenderAliases chatID chatAliases ev.timestamp s2.aliases }
      else s2
    let row : MessageRow :=
      { id := ev.id, chatJid := chatID, sender := sender, content := content,
        timestamp := ev.timestamp, isFromMe := ev.isFromMe, mediaType := mi.mediaType,
        filename := mi.filename, url := mi.url, mediaKey := mi.mediaKey,
        fileSha256 := mi.fileSha256, fileEncSha256 := mi.fileEncSha256,
        fileLength := mi.fileLength }
    { s3 with messages := storeMessage row s3.messages }

/-- Claim C10: the live-message handler upserts the chat row before the
empty-payload check, so a live message with empty text and no media —
itself dropped — still updates its chat row's name and
`last_message_time` while leaving the messages and alias tables
untouched. -/
theorem handleMessage_empty_payload_updates_chat (client : Option ClientModel)
    (nowStamp : String) (ev : MessageEvent) (s : Store)
    (hcontent : extractTextContent ev.message = "")
    (hmedia : (extractMediaInfo nowStamp ev.message).mediaType = "") :
    (handleMessage client nowStamp ev s).messages = s.messages
    ∧ (handleMessage client nowStamp ev s).aliases = s.aliases
    ∧ (handleMessage client nowStamp ev s).chats
        = storeChat (canonicalizeChatID client ev.chat.toNonAD)
            (getChatName client s.chats ev.chat.toNonAD
              (canonicalizeChatID client ev.chat.toNonAD) none none
              (canonicalizeSender client ev.sender ev.senderAlt))
            ev.timestamp s.chats := by
  simp only [handleMessage]
  rw [if_pos ⟨hcontent, hmedia⟩]
  exact ⟨rfl, rfl, rfl⟩

/-- A live message with no payload at all. -/
def emptyPayloadEvent : MessageEvent :=
  { chat := ⟨"5551234", "s.whatsapp.net", 0⟩, sender := ⟨"5551234", "s.whatsapp.net", 0⟩,
    senderAlt := emptyJID, id := "LIVE1", timestamp := 42, isFromMe := false,
    message := none }

theorem handleMessage_empty_payload_witness :
    (handleMessage none "ts" emptyPayloadEvent emptyStore).messages = emptyStore.messages
    ∧ (handleMessage none "ts" emptyPayloadEvent emptyStore).aliases = emptyStore.aliases
    ∧ (handleMessage none "ts" emptyPayloadEvent emptyStore).chats
        = storeChat (canonicalizeChatID none emptyPayloadEvent.chat.toNonAD)
            (getChatName none emptyStore.chats emptyPayloadEvent.chat.toNonAD
              (canonicalizeChatID none emptyPayloadEvent.chat.toNonAD) none none
              (canonicalizeSender none emptyPayloadEvent.sender emptyPayloadEvent.senderAlt))
            emptyPayloadEvent.timestamp emptyStore.chats :=
  handleMessage_empty_payload_updates_chat none "ts" emptyPayloadEvent emptyStore rfl rfl

/-! ## Media codec helper: `analyzeOggOpus` (audio.go)

Byte-level model of the Ogg page scan.  Go slice expressions
`data[lo:hi]` panic at runtime when `hi` exceeds the slice length; the
model makes those panics explicit (`goSlice` returns `none`, the scan
returns `.crash`).  The float64 duration arithmetic is modelled as exact
integer ceiling division, and `lastGranule - uint64(preSkip)` as the
wrapping 64-bit subtraction Go performs. -/

/-- Go slicing `data[lo:hi]`: `none` models the runtime bounds panic. -/
def goSlice (data : List Nat) (lo hi : Nat) : Option (List Nat) :=
  if lo ≤ hi ∧ hi ≤ data.length then some ((data.drop lo).take (hi - lo)) else none

/-- `binary.LittleEndian.Uint{16,32,64}` over `n` bytes at offset `off`. -/
def readLE (data : List Nat) (off n : Nat) : Nat :=
  (List.range n).foldl (fun acc k => acc + data.getD (off + k) 0 * 256 ^ k) 0

/-- The bytes of `"OggS"`. -/
def oggMagic : List Nat := [79, 103, 103, 83]

/-- The bytes of `"OpusHead"`. -/
def opusHeadBytes : List Nat := [79, 112, 117, 115, 72, 101, 97, 100]

/-- `bytes.Index`: the first index where `needle` occurs in `hay`. -/
def bytesIndex (hay needle : List Nat) : Option Nat :=
  (List.range (hay.length + 1)).find? (fun i => needle.isPrefixOf (hay.drop i))

/-- State threaded through the page scan. -/
structure OggScanState where
  lastGranule : Nat
  sampleRate : Nat
  preSkip : Nat
  foundOpusHead : Bool
  deriving DecidableEq, Repr

/-- Scan result: `crash` is the Go slice-bounds runtime panic. -/
inductive OggScanOutcome where
  | crash
  | done (st : OggScanState)
  deriving DecidableEq, Repr

/-- The OpusHead extraction attempted on pages with `pageSeqNum ≤ 1`
until a head is found.  The second inner read
(`pageData[headPos+12 : headPos+16]`) can itself slice past the end of
the page; `none` propagates that panic. -/
def scanOpusHead (pageData : List Nat) (st : OggScanState) : Option OggScanState :=
  match bytesIndex pageData opusHeadBytes with
  | none => some st
  | some headPos0 =>
      if headPos0 + 12 < pageData.length then
        let headPos := headPos0 + 8
        if headPos + 12 ≤ pageData.length then
          match goSlice pageData (headPos + 10) (headPos + 12),
                goSlice pageData (headPos + 12) (headPos + 16) with
          | some preSkipBytes, some rateBytes =>
              some { st with preSkip := readLE preSkipBytes 0 2,
                             sampleRate := readLE rateBytes 0 4,
                             foundOpusHead := true }
          | _, _ => none
        else some st
      else some st

/-- The page-walking loop of `analyzeOggOpus`.  `fuel` bounds the
recursion: every iteration advances `i` by at least one, so
`data.length + 1` steps always reach the loop exit and the fuel-exhausted
default is never hit from the top-level entry. -/
def oggPageScan (data : List Nat) : Nat → Nat → OggScanState → OggScanOutcome
  | 0, _, st => .done st
  | fuel + 1, i, st =>
      if i ≥ data.length then .done st
      else if i + 27 ≥ data.length then .done st
      else if (data.drop i).take 4 ≠ oggMagic then oggPageScan data fuel (i + 1) st
      else
        let granulePos := readLE data (i + 6) 8
        let pageSeqNum := readLE data (i + 18) 4
        let numSegments := data.getD (i + 26) 0
        if i + 27 + numSegments ≥ data.length then .done st
        else
          let segmentTable := (data.drop (i + 27)).take numSegments
          let pageSize := 27 + numSegments + segmentTable.sum
          let headStep : Option OggScanState :=
            if ¬ st.foundOpusHead ∧ pageSeqNum ≤ 1 then
              match goSlice data i (i + pageSize) with
              | none => none
              | some pageData => scanOpusHead pageData st
            else some st
          match headStep with
          | none => .crash
          | some st1 =>
              let st2 :=
                if granulePos ≠ 0 then { st1 with lastGranule := granulePos } else st1
              oggPageScan data fuel (i + pageSize) st2

/-- Result of `analyzeOggOpus`: error for a missing `OggS` signature,
panic on malformed pages, otherwise the clamped duration (the returned
waveform is `placeholderWaveform duration`, a pure function of the
duration alone). -/
inductive AnalyzeResult where
  | crash
  | invalidOgg
  | ok (duration : Nat)
  deriving DecidableEq, Repr

/-- Exact ceiling division, modelling `math.Ceil` of the float64
quotient. -/
def ceilDiv (a b : Nat) : Nat := (a + b - 1) / b

/-- `analyzeOggOpus` (audio.go): scan pages with defaults
`sampleRate = 48000`, `preSkip = 0`; duration from the last granule
(wrapping subtraction of `preSkip`, ceiling-divided by the sample rate)
or the `len/2000` fallback, clamped to `[1, 300]`. -/
def analyzeOggOpus (data : List Nat) : AnalyzeResult :=
  if data.length < 4 ∨ data.take 4 ≠ oggMagic then .invalidOgg
  else
    match oggPageScan data (data.length + 1) 0 ⟨0, 48000, 0, false⟩ with
    | .crash => .crash
    | .done st =>
        let duration :=
          if 0 < st.lastGranule then
            ceilDiv ((st.lastGranule + 2 ^ 64 - st.preSkip) % 2 ^ 64) st.sampleRate
          else data.length / 2000
        let duration := if duration < 1 then 1 else if duration > 300 then 300 else duration
        .ok duration

/-- A 30-byte capture: a well-formed `OggS` page header whose single
segment-table entry (255) yields `pageSize = 283`, far beyond the 30
available bytes, while the code's only guard (`i+27+numSegments ≥ len`,
here `28 ≥ 30`) passes. -/
def badOpusInput : List Nat :=
  [79, 103, 103, 83] ++ List.replicate 22 0 ++ [1, 255, 0, 0]

/-- Claim C6 (code-bug evidence): `analyzeOggOpus` accepts `badOpusInput`
(it begins with the `OggS` magic) yet panics — the unguarded
`pageData := data[i : i+pageSize]` slices 283 bytes out of a 30-byte
buffer — so no duration or waveform is returned at all, against the
claimed total behaviour on `OggS`-prefixed inputs. -/
theorem analyzeOggOpus_crashes_on_truncated_page :
    analyzeOggOpus badOpusInput = .crash ∧ badOpusInput.take 4 = oggMagic := by
  constructor <;> decide

end Bridge
